import Mathlib

/-!
Shallow embedding of the rpz_processor repository (src/main.py,
src/lib/converter.py, src/lib/processor.py).

The program streams a DNS blocklist line by line, filters each candidate
line against an allow-list (exact and right-hand/suffix matching), and
writes RPZ-format output through one of three converter strategies.

Python strings are modelled as Lean `String`; Python `set` objects are
modelled as `List String` queried only through membership (the only
operation the program ever observes on them, besides `add`).  Fallible operations (`line[0]` on an empty string,
`line.split()[0]` on a token-less line) return `Option`, with `none`
standing for the raised `IndexError`.
-/

namespace RpzProc

/-- The set of characters Python's `str.split()` / `str.strip()` treat as
whitespace (restricted to the ASCII ones, which are the only ones that can
appear in the byte-oriented line streams this program handles). -/
def pyIsSpace (c : Char) : Bool :=
  c = ' ' || c = '\t' || c = '\n' || c = '\r' || c = '\x0b' || c = '\x0c'

/-- Helper for Python `str.split()` (no separator): accumulate the current
token in `cur` (reversed) and split on runs of whitespace, discarding
empty tokens. -/
def splitWsAux : List Char → List Char → List (List Char)
  | [], [] => []
  | [], cur => [cur.reverse]
  | c :: rest, cur =>
    if pyIsSpace c then
      if cur = [] then splitWsAux rest []
      else cur.reverse :: splitWsAux rest []
    else splitWsAux rest (c :: cur)

/-- Python `line.split()`: tokens separated by whitespace runs, no empty
tokens.  `"".split()` and `"\t".split()` are both `[]`. -/
def pySplit (s : String) : List String :=
  (splitWsAux s.data []).map String.mk

/-- Helper for Python `str.split('.')`: split on every `.`, keeping empty
pieces. -/
def splitDotAux : List Char → List Char → List (List Char)
  | [], cur => [cur.reverse]
  | c :: rest, cur =>
    if c = '.' then cur.reverse :: splitDotAux rest []
    else splitDotAux rest (c :: cur)

/-- Python `domain.split('.')`: e.g. `"a.b" ↦ ["a","b"]`, `"" ↦ [""]`,
`"a..b" ↦ ["a","","b"]`.  Never returns the empty list. -/
def pySplitDot (s : String) : List String :=
  (splitDotAux s.data []).map String.mk

/-- Python `line.strip()`: remove leading and trailing whitespace. -/
def pyStrip (s : String) : String :=
  String.mk (((s.data.dropWhile pyIsSpace).reverse.dropWhile pyIsSpace).reverse)

/-- Helper for Python `line.replace(old, new, 1)` with one-character `old`
and `new`: replace the first occurrence only. -/
def replaceFirstAux (a b : Char) : List Char → List Char
  | [] => []
  | c :: rest => if c = a then b :: rest else c :: replaceFirstAux a b rest

/-- Python `line.replace('#', ';', 1)` generalised to arbitrary single
characters. -/
def pyReplaceFirst (s : String) (a b : Char) : String :=
  String.mk (replaceFirstAux a b s.data)

/-- Python `line[0]`: the first character, or `none` (IndexError) when the
string is empty. -/
def headChar (s : String) : Option Char :=
  s.data.head?

/-- `MAX_DOMAIN_LENGTH` from src/main.py. -/
def MAX_DOMAIN_LENGTH : Nat := 240

/-- The three concrete `RpzConverter` subclasses of src/lib/converter.py:
`PassThruRpzConverter`, `DomainConverter`, `WildcardDomainConverter`.
They are stateless, so a converter is just its variant tag. -/
inductive RpzConverter where
  | passThruRpz
  | domainList
  | wildcardDomainList
deriving DecidableEq, Repr

/-- `get_name()` of each converter class. -/
def get_name : RpzConverter → String
  | .passThruRpz => "rpz"
  | .domainList => "domains"
  | .wildcardDomainList => "wildcards"

/-- `should_passthru(line)`.  Every variant reads `line[0]`, which raises
on an empty line — hence `Option Bool`.
`PassThruRpzConverter`: first char in `(';', '$', '@', ' ')`;
`DomainConverter` and `WildcardDomainConverter`: first char in `(';', '#')`. -/
def should_passthru : RpzConverter → String → Option Bool
  | .passThruRpz, line =>
    (headChar line).map (fun c => c = ';' || c = '$' || c = '@' || c = ' ')
  | _, line =>
    (headChar line).map (fun c => c = ';' || c = '#')

/-- `extract_domain(line)`.
Base class (used by `PassThruRpzConverter`): `line.split()[0]`, which
raises IndexError (`none`) when the line has no token.
`DomainConverter`: the whole line.
`WildcardDomainConverter`: `line[2:] if line[0:2] == '*.' else line`. -/
def extract_domain : RpzConverter → String → Option String
  | .passThruRpz, line => (pySplit line).head?
  | .domainList, line => some line
  | .wildcardDomainList, line =>
    some (if line.data.take 2 = ['*', '.'] then String.mk (line.data.drop 2) else line)

/-- `write_line(output, line)`, returned as the list of records appended to
the output (concatenating the list gives exactly the bytes written).
`DomainConverter` and `WildcardDomainConverter` read `line[0]`, which
raises on an empty line — hence `Option`.
`PassThruRpzConverter`: the line plus a newline.
`DomainConverter`: a leading `#` becomes `;` (first occurrence replaced)
plus newline; otherwise the line plus `" CNAME .\n"`.
`WildcardDomainConverter`: as `DomainConverter`, but a line starting with
`*.` additionally gets a second record for the bare domain. -/
def write_line : RpzConverter → String → Option (List String)
  | .passThruRpz, line => some [line ++ "\n"]
  | .domainList, line =>
    (headChar line).map (fun c =>
      if c = '#' then [pyReplaceFirst line '#' ';' ++ "\n"]
      else [line ++ " CNAME .\n"])
  | .wildcardDomainList, line =>
    (headChar line).map (fun c =>
      if c = '#' then [pyReplaceFirst line '#' ';' ++ "\n"]
      else if line.data.take 2 = ['*', '.'] then
        [line ++ " CNAME .\n", String.mk (line.data.drop 2) ++ " CNAME .\n"]
      else [line ++ " CNAME .\n"])

/-- `DomainConverter.PREAMBLE`.  In src/lib/converter.py the serial number
is `int(time())` evaluated once when the class is created; in src/main.py
it is the constant `1`.  The serial is therefore a parameter, fixed for
the whole life of the process. -/
def PREAMBLE (serial : Nat) : String :=
  "$TTL 2h\n@ IN SOA localhost. root.localhost. (" ++ toString serial ++
    " 6h 1h 1w 2h)\n  IN NS  localhost.\n"

/-- `before_writing(output)`: `PassThruRpzConverter` writes nothing;
the two domain-list converters write `PREAMBLE` plus a newline. -/
def before_writing : RpzConverter → Nat → String
  | .passThruRpz, _ => ""
  | _, serial => PREAMBLE serial ++ "\n"

/-- `after_writing(output)`: every variant writes nothing. -/
def after_writing : RpzConverter → String :=
  fun _ => ""

/-- The allow-list state of `RpzProcessor`: the class-level attributes
`allow_domains_exact` and `allow_domains_right`.  They are class (not
instance) attributes and are only ever mutated in place, so all
`RpzProcessor` instances of a process share this single state; it is
threaded explicitly here. -/
structure AllowSets where
  allow_domains_exact : List String
  allow_domains_right : List String
deriving Repr

/-- The initial (empty) class-level allow-list state. -/
def emptyAllow : AllowSets := ⟨[], []⟩

/-- Python `set.add`: no-op when the element is already a member. -/
def pyAdd (s : List String) (x : String) : List String :=
  if x ∈ s then s else x :: s

/-- One iteration of the `read_allow_list` loop body on an already-read
raw line: strip it; skip it if shorter than 2 characters or starting with
`#`; a leading `.` makes a right-hand rule (added to both sets, without
the dot); anything else is an exact rule. -/
def read_allow_line (st : AllowSets) (raw : String) : AllowSets :=
  let line := pyStrip raw
  if line.length < 2 ∨ headChar line = some '#' then st
  else if headChar line = some '.' then
    let stripped := String.mk (line.data.drop 1)
    { allow_domains_exact := pyAdd st.allow_domains_exact stripped
      allow_domains_right := pyAdd st.allow_domains_right stripped }
  else
    { st with allow_domains_exact := pyAdd st.allow_domains_exact (line) }

/-- `RpzProcessor.read_allow_list` on the successfully read file contents
(given as its list of lines): fold the loop body over the lines, starting
from the current shared state. -/
def read_allow_list (st : AllowSets) (fileLines : List String) : AllowSets :=
  fileLines.foldl read_allow_line st

/-- The `checklist` built in `RpzProcessor._do_import`:
`['.'.join(segments[i:]) for i in range(len(segments) - 1)]`. -/
def checklist (segments : List String) : List String :=
  (List.range (segments.length - 1)).map
    (fun i => String.intercalate "." (segments.drop i))

/-- One iteration of the `_do_import` line loop, returning the list of
records written for this line (`[]` when the line is skipped or dropped),
or `none` when the iteration raises (empty-line indexing cannot happen —
blank lines are skipped first — but `extract_domain` can raise).  The
loop's local variable `segments = domain.split('.')` is inlined. -/
def process_line (conv : RpzConverter) (st : AllowSets) (line : String) :
    Option (List String) :=
  if line = "" then some []
  else
    match should_passthru conv line with
    | none => none
    | some true => write_line conv line
    | some false =>
      match extract_domain conv line with
      | none => none
      | some domain =>
        if MAX_DOMAIN_LENGTH < domain.length then some []
        else if domain ∈ st.allow_domains_exact then some []
        else if (pySplitDot domain).length < 2 then some []
        else if (checklist (pySplitDot domain)).any
            (fun item => decide (item ∈ st.allow_domains_right)) then some []
        else write_line conv line

/-- The whole `_do_import` line loop over the streamed lines, concatenating
the per-line records. -/
def process_lines (conv : RpzConverter) (st : AllowSets) :
    List String → Option (List String)
  | [] => some []
  | l :: ls =>
    match process_line conv st l, process_lines conv st ls with
    | some recs, some rest => some (recs ++ rest)
    | _, _ => none

/-- `_do_import` as a function from the streamed input lines to the bytes
written to the output file (`none` when the run raises mid-stream). -/
def do_import (conv : RpzConverter) (serial : Nat) (st : AllowSets)
    (lines : List String) : Option String :=
  (process_lines conv st lines).map
    (fun recs => before_writing conv serial ++ String.join recs ++ after_writing conv)

/-- The subclass enumeration order produced by `all_subclasses(RpzConverter)`
in src/lib/converter.py (depth-first, children before parents):
`PassThruRpzConverter`, `WildcardDomainConverter`, `DomainConverter`. -/
def all_subclasses : List RpzConverter :=
  [.passThruRpz, .wildcardDomainList, .domainList]

/-- The `converters` registry of src/lib/converter.py:
`{clazz.get_name(): clazz() for clazz in all_subclasses(RpzConverter)}`,
modelled as an association list (all three keys are distinct). -/
def converters : List (String × RpzConverter) :=
  all_subclasses.map (fun c => (get_name c, c))

/-- `converter_choice(choice)` from src/main.py: dictionary lookup; a
missing key raises (`KeyError`, re-raised as `AttributeError` to the
caller), modelled as `none`. -/
def converter_choice (choice : String) : Option RpzConverter :=
  (converters.find? (fun p => p.1 = choice)).map Prod.snd

/-! ### Helper lemmas -/

lemma exists_cons_of_ne_empty (s : String) (h : s ≠ "") : ∃ c cs, s.data = c :: cs := by
  obtain ⟨l⟩ := s
  cases l with
  | nil => exact absurd rfl h
  | cons c cs => exact ⟨c, cs, rfl⟩

lemma mem_pyAdd {s : List String} {x d : String} :
    d ∈ pyAdd s x ↔ d ∈ s ∨ d = x := by
  unfold pyAdd
  split
  next h =>
    constructor
    · exact Or.inl
    · rintro (hd | rfl)
      · exact hd
      · exact h
  next h =>
    simp only [List.mem_cons]
    tauto

lemma write_line_of_ne_empty (conv : RpzConverter) (line : String) (h : line ≠ "") :
    ∃ recs, write_line conv line = some recs ∧ recs ≠ [] := by
  obtain ⟨c, cs, hdata⟩ := exists_cons_of_ne_empty line h
  cases conv with
  | passThruRpz => exact ⟨[line ++ "\n"], rfl, by simp⟩
  | domainList =>
    refine ⟨if c = '#' then [pyReplaceFirst line '#' ';' ++ "\n"]
        else [line ++ " CNAME .\n"], ?_, ?_⟩
    · simp only [write_line, headChar, hdata, List.head?, Option.map_some']
    · split <;> simp
  | wildcardDomainList =>
    refine ⟨if c = '#' then [pyReplaceFirst line '#' ';' ++ "\n"]
        else if line.data.take 2 = ['*', '.'] then
          [line ++ " CNAME .\n", String.mk (line.data.drop 2) ++ " CNAME .\n"]
        else [line ++ " CNAME .\n"], ?_, ?_⟩
    · simp only [write_line, headChar, hdata, List.head?, Option.map_some']
    · split
      · simp
      · split <;> simp

lemma checklist_any_iff (segs : List String) (R : List String) :
    ((checklist segs).any (fun item => decide (item ∈ R)) = true) ↔
      ∃ i, i < segs.length - 1 ∧ String.intercalate "." (segs.drop i) ∈ R := by
  simp only [checklist, List.any_eq_true, List.mem_map, List.mem_range,
    decide_eq_true_eq]
  constructor
  · rintro ⟨item, ⟨i, hi, rfl⟩, hmem⟩
    exact ⟨i, hi, hmem⟩
  · rintro ⟨i, hi, hmem⟩
    exact ⟨_, ⟨i, hi, rfl⟩, hmem⟩

/-- The drop/keep dichotomy of the `_do_import` candidate path: a
non-passthrough line whose extracted domain respects the length bound is
dropped (no records) exactly when the domain is in the exact set, has
fewer than 2 dot-separated segments, or some right-hand decomposition is
in the right-hand set. -/
lemma process_line_drop_iff (conv : RpzConverter) (st : AllowSets)
    (line domain : String)
    (hne : line ≠ "")
    (hpass : should_passthru conv line = some false)
    (hdom : extract_domain conv line = some domain)
    (hlen : domain.length ≤ MAX_DOMAIN_LENGTH) :
    (process_line conv st line = some [] ↔
      (domain ∈ st.allow_domains_exact
        ∨ (pySplitDot domain).length < 2
        ∨ ∃ i, i < (pySplitDot domain).length - 1
            ∧ String.intercalate "." ((pySplitDot domain).drop i)
              ∈ st.allow_domains_right)) := by
  unfold process_line
  rw [if_neg hne, hpass, hdom]
  simp only [Nat.not_lt.mpr hlen, if_false]
  by_cases hex : domain ∈ st.allow_domains_exact
  · simp [hex]
  · rw [if_neg hex]
    by_cases hseg : (pySplitDot domain).length < 2
    · simp [hseg, hex]
    · rw [if_neg hseg]
      by_cases hany : ((checklist (pySplitDot domain)).any
          (fun item => decide (item ∈ st.allow_domains_right)) = true)
      · simp only [hany, if_true]
        simp only [true_iff]
        exact Or.inr (Or.inr ((checklist_any_iff _ _).mp hany))
      · rw [if_neg hany]
        obtain ⟨recs, hrecs, hrecs_ne⟩ := write_line_of_ne_empty conv line hne
        rw [hrecs]
        simp only [Option.some_inj]
        constructor
        · intro h
          exact absurd h hrecs_ne
        · rintro (h | h | h)
          · exact absurd h hex
          · exact absurd h hseg
          · exact absurd ((checklist_any_iff _ _).mpr h) hany

lemma splitWsAux_ne_nil (cs : List Char) (cur : List Char) (h : cur ≠ []) :
    splitWsAux cs cur ≠ [] := by
  induction cs generalizing cur with
  | nil =>
    cases cur with
    | nil => exact absurd rfl h
    | cons a t => simp [splitWsAux]
  | cons c rest ih =>
    cases cur with
    | nil => exact absurd rfl h
    | cons a t =>
      simp only [splitWsAux]
      split
      · simp
      · exact ih _ (by simp)

lemma splitWsAux_nil_eq_nil_iff (cs : List Char) :
    splitWsAux cs [] = [] ↔ cs.all pyIsSpace := by
  induction cs with
  | nil => simp [splitWsAux]
  | cons c rest ih =>
    simp only [splitWsAux, List.all_cons]
    by_cases hc : pyIsSpace c
    · simp [hc, ih]
    · simp [hc, splitWsAux_ne_nil rest [c] (by simp)]

/-- `line.split()[0]` raises (returns no domain) exactly on all-whitespace
lines. -/
lemma extract_domain_rpz_none_iff (line : String) :
    extract_domain .passThruRpz line = none ↔ line.data.all pyIsSpace = true := by
  simp only [extract_domain, pySplit, List.head?_eq_none_iff, List.map_eq_nil_iff,
    splitWsAux_nil_eq_nil_iff]

lemma read_allow_line_mem (st : AllowSets) (l d : String) :
    (d ∈ (read_allow_line st l).allow_domains_exact ↔
       d ∈ st.allow_domains_exact
         ∨ d ∈ (read_allow_line emptyAllow l).allow_domains_exact)
    ∧ (d ∈ (read_allow_line st l).allow_domains_right ↔
       d ∈ st.allow_domains_right
         ∨ d ∈ (read_allow_line emptyAllow l).allow_domains_right) := by
  by_cases h1 : (pyStrip l).length < 2 ∨ headChar (pyStrip l) = some '#'
  · simp [read_allow_line, h1, emptyAllow]
  · obtain ⟨hA, hB⟩ := not_or.mp h1
    by_cases h2 : headChar (pyStrip l) = some '.'
    · simp [read_allow_line, hA, hB, h2, mem_pyAdd, emptyAllow]
    · simp [read_allow_line, hA, hB, h2, mem_pyAdd, emptyAllow]

/-- Membership in the allow sets after a `read_allow_list` call is the
union of the previous membership and the entries contributed by the file
alone. -/
lemma read_allow_list_mem (ls : List String) (st : AllowSets) (d : String) :
    (d ∈ (read_allow_list st ls).allow_domains_exact ↔
       d ∈ st.allow_domains_exact
         ∨ d ∈ (read_allow_list emptyAllow ls).allow_domains_exact)
    ∧ (d ∈ (read_allow_list st ls).allow_domains_right ↔
       d ∈ st.allow_domains_right
         ∨ d ∈ (read_allow_list emptyAllow ls).allow_domains_right) := by
  induction ls generalizing st with
  | nil => simp [read_allow_list, emptyAllow]
  | cons l ls ih =>
    have hstep := read_allow_line_mem st l d
    have ih1 := ih (read_allow_line st l)
    have ih2 := ih (read_allow_line emptyAllow l)
    have hg : read_allow_list st (l :: ls) = read_allow_list (read_allow_line st l) ls := rfl
    have hg0 : read_allow_list emptyAllow (l :: ls)
        = read_allow_list (read_allow_line emptyAllow l) ls := rfl
    rw [hg, hg0]
    constructor
    · rw [ih1.1, ih2.1, hstep.1]
      exact or_assoc
    · rw [ih1.2, ih2.2, hstep.2]
      exact or_assoc

/-- The candidate-path filtering consults the allow sets only through
membership, so extensionally equal allow sets process every line
identically. -/
lemma process_line_congr (conv : RpzConverter) (st1 st2 : AllowSets) (line : String)
    (hex : ∀ d, d ∈ st1.allow_domains_exact ↔ d ∈ st2.allow_domains_exact)
    (hr : ∀ d, d ∈ st1.allow_domains_right ↔ d ∈ st2.allow_domains_right) :
    process_line conv st1 line = process_line conv st2 line := by
  simp only [process_line, hex, hr]

lemma process_lines_congr (conv : RpzConverter) (st1 st2 : AllowSets)
    (lines : List String)
    (hex : ∀ d, d ∈ st1.allow_domains_exact ↔ d ∈ st2.allow_domains_exact)
    (hr : ∀ d, d ∈ st1.allow_domains_right ↔ d ∈ st2.allow_domains_right) :
    process_lines conv st1 lines = process_lines conv st2 lines := by
  induction lines with
  | nil => rfl
  | cons l ls ih =>
    simp only [process_lines, process_line_congr conv st1 st2 l hex hr, ih]

/-- Whenever a line loop iteration actually writes records (a non-empty
record list), those records are exactly what `write_line` produces for the
line: both the passthrough path and the surviving-candidate path call
`write_line` unchanged. -/
lemma process_line_kept (conv : RpzConverter) (st : AllowSets)
    (line : String) (recs : List String)
    (hproc : process_line conv st line = some recs) (hne : recs ≠ []) :
    write_line conv line = some recs := by
  unfold process_line at hproc
  by_cases h0 : line = ""
  · rw [if_pos h0] at hproc
    injection hproc with h
    exact absurd h.symm hne
  rw [if_neg h0] at hproc
  cases hsp : should_passthru conv line with
  | none =>
    simp only [hsp] at hproc
    exact Option.noConfusion hproc
  | some b =>
    simp only [hsp] at hproc
    cases b with
    | true => exact hproc
    | false =>
      cases hdom : extract_domain conv line with
      | none =>
        simp only [hdom] at hproc
        exact Option.noConfusion hproc
      | some domain =>
        simp only [hdom] at hproc
        by_cases h1 : MAX_DOMAIN_LENGTH < domain.length
        · rw [if_pos h1] at hproc
          injection hproc with h
          exact absurd h.symm hne
        rw [if_neg h1] at hproc
        by_cases h2 : domain ∈ st.allow_domains_exact
        · rw [if_pos h2] at hproc
          injection hproc with h
          exact absurd h.symm hne
        rw [if_neg h2] at hproc
        by_cases h3 : (pySplitDot domain).length < 2
        · rw [if_pos h3] at hproc
          injection hproc with h
          exact absurd h.symm hne
        rw [if_neg h3] at hproc
        by_cases h4 : ((checklist (pySplitDot domain)).any
            (fun item => decide (item ∈ st.allow_domains_right)) = true)
        · rw [if_pos h4] at hproc
          injection hproc with h
          exact absurd h.symm hne
        · rw [if_neg h4] at hproc
          exact hproc

/-! ### Claim C1 -/

/-- Claim C1 (counterexample): the claimed equivalence "a candidate line
with a domain of length at most 240 is dropped iff the domain is in the
exact set, or has at least 2 dot-separated segments and some right-hand
decomposition is in the suffixes set" fails at the single-label domain
`localhost` with an empty allow-list: the line is a candidate, its domain
respects the length bound and matches no allow-list rule (and has fewer
than 2 segments, so the suffix disjunct cannot hold), yet the filter
drops it — zero records are written. -/
theorem c1_counterexample :
    should_passthru .passThruRpz "localhost" = some false
    ∧ extract_domain .passThruRpz "localhost" = some "localhost"
    ∧ String.length "localhost" ≤ 240
    ∧ process_line .passThruRpz emptyAllow "localhost" = some []
    ∧ "localhost" ∉ emptyAllow.allow_domains_exact
    ∧ ¬2 ≤ (pySplitDot "localhost").length := by
  refine ⟨by decide, by decide, by decide, by decide, by decide, by decide⟩

/-- Claim C1 (amended): for every allow-list and every non-passthrough
input line whose extracted candidate domain has length at most 240, the
filter drops the line if and only if the domain is a member of the exact
set, or the domain has fewer than 2 dot-separated segments (it is then
dropped as malformed), or the domain has at least 2 dot-separated
segments and some right-hand decomposition of it (the full domain, then
successive suffixes, stopping before the bare final label) is a member of
the suffixes set.  The allow-list entry examples of the claim (entry
`example.com` dropping `example.com` but not `sub.example.com`, entry
`.example.net` dropping `example.net`, `foo.example.net` and
`a.b.example.net` but not `notexample.net`) all satisfy this amended
equivalence. -/
theorem c1_amended_drop_iff (conv : RpzConverter) (st : AllowSets)
    (line domain : String)
    (hne : line ≠ "")
    (hpass : should_passthru conv line = some false)
    (hdom : extract_domain conv line = some domain)
    (hlen : domain.length ≤ 240) :
    (process_line conv st line = some [] ↔
      (domain ∈ st.allow_domains_exact
        ∨ (pySplitDot domain).length < 2
        ∨ (2 ≤ (pySplitDot domain).length
            ∧ ∃ i, i < (pySplitDot domain).length - 1
              ∧ String.intercalate "." ((pySplitDot domain).drop i)
                ∈ st.allow_domains_right))) := by
  rw [process_line_drop_iff conv st line domain hne hpass hdom hlen]
  constructor
  · rintro (h | h | h)
    · exact Or.inl h
    · exact Or.inr (Or.inl h)
    · by_cases hb : (pySplitDot domain).length < 2
      · exact Or.inr (Or.inl hb)
      · exact Or.inr (Or.inr ⟨by omega, h⟩)
  · rintro (h | h | ⟨h2, h⟩)
    · exact Or.inl h
    · exact Or.inr (Or.inl h)
    · exact Or.inr (Or.inr h)

/-- Witness for C1 (amended): with the allow-list built from the entries
`example.com` (exact) and `.example.net` (suffix), the candidate line
`example.com` is dropped by the exact-set disjunct. -/
theorem c1_amended_witness :
    process_line .passThruRpz
      (read_allow_list emptyAllow ["example.com", ".example.net"]) "example.com"
      = some [] :=
  (c1_amended_drop_iff .passThruRpz
      (read_allow_list emptyAllow ["example.com", ".example.net"])
      "example.com" "example.com"
      (by decide) (by decide) (by decide) (by decide)).mpr
    (Or.inl (by decide))

/-! ### Claim C2 -/

/-- Claim C2 (counterexample): with an empty allow-list, the single-label
candidate line `localhost` does NOT proceed to output: the filter drops
it (zero records), although `write_line` would have written
`localhost CNAME .` had the line survived. -/
theorem c2_counterexample :
    should_passthru .domainList "localhost" = some false
    ∧ extract_domain .domainList "localhost" = some "localhost"
    ∧ process_line .domainList emptyAllow "localhost" = some []
    ∧ write_line .domainList "localhost" = some ["localhost CNAME .\n"] := by
  refine ⟨by decide, rfl, by decide, by decide⟩

/-- Claim C2 (amended): a single-label candidate domain (fewer than 2
dot-separated segments) never matches a suffix rule — no right-hand
decomposition of it can be in the suffixes set — but such a line does not
proceed to output either: it is silently dropped for every allow-list
(whether via an exact match or via the fewer-than-2-segments check). -/
theorem c2_amended_single_label (conv : RpzConverter) (st : AllowSets)
    (line domain : String)
    (hne : line ≠ "")
    (hpass : should_passthru conv line = some false)
    (hdom : extract_domain conv line = some domain)
    (hlen : domain.length ≤ 240)
    (hseg : (pySplitDot domain).length < 2) :
    process_line conv st line = some []
    ∧ ¬∃ i, i < (pySplitDot domain).length - 1
        ∧ String.intercalate "." ((pySplitDot domain).drop i)
          ∈ st.allow_domains_right := by
  constructor
  · exact (process_line_drop_iff conv st line domain hne hpass hdom hlen).mpr
      (Or.inr (Or.inl hseg))
  · rintro ⟨i, hi, _⟩
    omega

/-- Witness for C2 (amended): the line `localhost` is dropped even with a
non-empty allow-list. -/
theorem c2_amended_witness :
    process_line .domainList ⟨["localhost"], ["com"]⟩ "localhost" = some [] :=
  (c2_amended_single_label .domainList ⟨["localhost"], ["com"]⟩
      "localhost" "localhost" (by decide) (by decide) rfl (by decide) (by decide)).1

/-! ### Claim C3 -/

/-- Claim C3: for the wildcards converter, the allow-list check operates
on the line with the leading `*.` stripped; for every allow-list whose
suffixes set contains `example.com`, the input line `*.ads.example.com`
is fully dropped — zero records are written. -/
theorem c3_wildcard_suppressed (st : AllowSets)
    (h : "example.com" ∈ st.allow_domains_right) :
    extract_domain .wildcardDomainList "*.ads.example.com" = some "ads.example.com"
    ∧ process_line .wildcardDomainList st "*.ads.example.com" = some [] := by
  refine ⟨by decide, ?_⟩
  refine (process_line_drop_iff .wildcardDomainList st "*.ads.example.com"
      "ads.example.com" (by decide) (by decide) (by decide) (by decide)).mpr ?_
  refine Or.inr (Or.inr ⟨1, by decide, ?_⟩)
  have hj : String.intercalate "." ((pySplitDot "ads.example.com").drop 1)
      = "example.com" := by decide
  rw [hj]
  exact h

/-- Witness for C3: the allow-list built from the single suffix entry
`.example.com` contains `example.com` in its suffixes set, so the
wildcard line is dropped. -/
theorem c3_witness :
    extract_domain .wildcardDomainList "*.ads.example.com" = some "ads.example.com"
    ∧ process_line .wildcardDomainList (read_allow_list emptyAllow [".example.com"])
        "*.ads.example.com" = some [] :=
  c3_wildcard_suppressed (read_allow_list emptyAllow [".example.com"]) (by decide)

/-! ### Claim C4 -/

/-- Claim C4: for the wildcards converter, every emitted non-comment line
that starts with `*.` produces exactly two records in order — the line
followed by ` CNAME .` and a newline, then the line with `*.` stripped
followed by ` CNAME .` and a newline; in particular, with an empty
allow-list, `*.ads.example.com` produces `*.ads.example.com CNAME .`
then `ads.example.com CNAME .`. -/
theorem c4_wildcard_dual_emission :
    (∀ (st : AllowSets) (line : String) (recs : List String),
        line.data.take 2 = ['*', '.'] →
        process_line .wildcardDomainList st line = some recs →
        recs ≠ [] →
        recs = [line ++ " CNAME .\n", String.mk (line.data.drop 2) ++ " CNAME .\n"])
    ∧ process_line .wildcardDomainList emptyAllow "*.ads.example.com"
        = some ["*.ads.example.com CNAME .\n", "ads.example.com CNAME .\n"] := by
  constructor
  · intro st line recs hstar hproc hrecs
    have hdata : ∃ rest, line.data = '*' :: '.' :: rest := by
      cases hl : line.data with
      | nil => rw [hl] at hstar; simp at hstar
      | cons a t =>
        cases t with
        | nil =>
          rw [hl] at hstar
          simp at hstar
        | cons b t2 =>
          rw [hl] at hstar
          simp at hstar
          obtain ⟨ha, hb⟩ := hstar
          subst ha
          subst hb
          exact ⟨t2, rfl⟩
    obtain ⟨rest, hdata⟩ := hdata
    have hw := process_line_kept .wildcardDomainList st line recs hproc hrecs
    have hwv : write_line .wildcardDomainList line
        = some [line ++ " CNAME .\n", String.mk (line.data.drop 2) ++ " CNAME .\n"] := by
      simp [write_line, headChar, hdata, hstar]
    rw [hwv] at hw
    exact (Option.some_inj.mp hw).symm
  · decide

/-- Witness for C4: instantiation of the dual-emission property at the
concrete surviving line `*.ads.example.com` with an empty allow-list. -/
theorem c4_witness :
    process_line .wildcardDomainList emptyAllow "*.ads.example.com"
      = some ["*.ads.example.com CNAME .\n", "ads.example.com CNAME .\n"]
    ∧ (["*.ads.example.com CNAME .\n", "ads.example.com CNAME .\n"] : List String)
      = ["*.ads.example.com" ++ " CNAME .\n",
         String.mk (("*.ads.example.com" : String).data.drop 2) ++ " CNAME .\n"] :=
  ⟨c4_wildcard_dual_emission.2,
   c4_wildcard_dual_emission.1 emptyAllow "*.ads.example.com" _
     (by decide) c4_wildcard_dual_emission.2 (by decide)⟩

/-! ### Claim C5 -/

/-- Claim C5: every non-passthrough line whose extracted candidate domain
is longer than 240 characters is dropped with nothing written, for every
allow-list — the length check precedes all allow-list matching, so the
drop happens even when the allow-list is empty or would not match. -/
theorem c5_oversized_dropped (conv : RpzConverter) (st : AllowSets)
    (line domain : String)
    (hne : line ≠ "")
    (hpass : should_passthru conv line = some false)
    (hdom : extract_domain conv line = some domain)
    (hlen : 240 < domain.length) :
    process_line conv st line = some [] := by
  unfold process_line
  rw [if_neg hne]
  simp only [hpass, hdom, MAX_DOMAIN_LENGTH]
  rw [if_pos hlen]

set_option maxRecDepth 4000 in
/-- Witness for C5: a 241-character domain line is dropped under the
empty allow-list. -/
theorem c5_witness :
    process_line .domainList emptyAllow (String.mk (List.replicate 241 'a'))
      = some [] :=
  c5_oversized_dropped .domainList emptyAllow
    (String.mk (List.replicate 241 'a')) (String.mk (List.replicate 241 'a'))
    (by decide) (by decide) rfl (by decide)

/-! ### Claim C6 -/

/-- Claim C6: the pipeline is deterministic — its output is a pure
function of the converter variant, the preamble serial (fixed once per
process), the input line sequence, and the extensional contents of the
allow sets.  Two runs over identical input with allow sets that agree as
sets (even if represented differently) produce byte-identical output. -/
theorem c6_deterministic (conv : RpzConverter) (serial : Nat)
    (st1 st2 : AllowSets) (lines : List String)
    (hex : ∀ d, d ∈ st1.allow_domains_exact ↔ d ∈ st2.allow_domains_exact)
    (hr : ∀ d, d ∈ st1.allow_domains_right ↔ d ∈ st2.allow_domains_right) :
    do_import conv serial st1 lines = do_import conv serial st2 lines := by
  unfold do_import
  rw [process_lines_congr conv st1 st2 lines hex hr]

/-- Witness for C6: two runs with differently represented but
extensionally equal allow sets give identical output bytes. -/
theorem c6_witness :
    do_import .domainList 7 ⟨["example.com", "example.com"], []⟩ ["bad.example.com"]
      = do_import .domainList 7 ⟨["example.com"], []⟩ ["bad.example.com"] :=
  c6_deterministic .domainList 7
    ⟨["example.com", "example.com"], []⟩ ⟨["example.com"], []⟩
    ["bad.example.com"] (fun d => by simp) (fun d => by simp)

/-! ### Claim C7 -/

/-- Claim C7: the converter registry maps exactly the three lowercase
keys `rpz`, `domains` and `wildcards` to the pass-through, domain-list
and wildcard-domain-list variants respectively, and looking up any other
key produces no converter — the lookup raises, a configuration error
surfaced to the caller. -/
theorem c7_registry :
    converter_choice "rpz" = some .passThruRpz
    ∧ converter_choice "domains" = some .domainList
    ∧ converter_choice "wildcards" = some .wildcardDomainList
    ∧ ∀ k : String, k ≠ "rpz" → k ≠ "domains" → k ≠ "wildcards" →
        converter_choice k = none := by
  refine ⟨by decide, by decide, by decide, ?_⟩
  intro k h1 h2 h3
  simp [converter_choice, converters, all_subclasses, get_name, List.find?,
    Ne.symm h1, Ne.symm h2, Ne.symm h3]

/-- Witness for C7: the unknown key `bogus` yields no converter. -/
theorem c7_witness : converter_choice "bogus" = none :=
  c7_registry.2.2.2 "bogus" (by decide) (by decide) (by decide)

/-! ### Claim C8 -/

/-- Claim C8: for the rpz converter, every line whose first character is
`;`, `$`, `@` or a space is classified passthrough; every other line is a
candidate whose domain is its first whitespace-delimited token; each
surviving line is written unchanged followed by exactly one newline; and
the four concrete lines of the claim round-trip unchanged under the empty
allow-list. -/
theorem c8_passthru_roundtrip :
    (∀ (line : String) (c : Char), headChar line = some c →
        (c = ';' ∨ c = '$' ∨ c = '@' ∨ c = ' ') →
        should_passthru .passThruRpz line = some true)
    ∧ (∀ (line : String) (c : Char), headChar line = some c →
        ¬(c = ';' ∨ c = '$' ∨ c = '@' ∨ c = ' ') →
        should_passthru .passThruRpz line = some false
          ∧ extract_domain .passThruRpz line = (pySplit line).head?)
    ∧ (∀ (st : AllowSets) (line : String) (recs : List String),
        process_line .passThruRpz st line = some recs → recs ≠ [] →
        recs = [line ++ "\n"])
    ∧ process_lines .passThruRpz emptyAllow
        ["$TTL 2h", "; comment", "@ IN SOA ...", "example.org CNAME ."]
      = some ["$TTL 2h\n", "; comment\n", "@ IN SOA ...\n", "example.org CNAME .\n"] := by
  refine ⟨?_, ?_, ?_, by decide⟩
  · intro line c hc hcs
    simp only [should_passthru, hc, Option.map_some', Option.some_inj]
    rcases hcs with rfl | rfl | rfl | rfl <;> decide
  · intro line c hc hcs
    push_neg at hcs
    obtain ⟨hc1, hc2, hc3, hc4⟩ := hcs
    refine ⟨?_, rfl⟩
    simp only [should_passthru, hc, Option.map_some', Option.some_inj]
    simp [hc1, hc2, hc3, hc4]
  · intro st line recs hproc hrecs
    have hw := process_line_kept .passThruRpz st line recs hproc hrecs
    simp only [write_line, Option.some_inj] at hw
    exact hw.symm

/-- Witness for C8: the directive line `$TTL 2h` is classified
passthrough. -/
theorem c8_witness :
    should_passthru .passThruRpz "$TTL 2h" = some true :=
  c8_passthru_roundtrip.1 "$TTL 2h" '$' rfl (Or.inr (Or.inl rfl))

/-! ### Claim C9 -/

/-- Claim C9 (counterexample): the non-empty line consisting of a single
tab character is not classified passthrough by the rpz converter (its
first character is not the space character), yet it contains no
whitespace-delimited token, so `extract_domain` fails — `line.split()[0]`
raises IndexError and the whole import run fails on such a line. -/
theorem c9_counterexample :
    ("\t" : String) ≠ ""
    ∧ should_passthru .passThruRpz "\t" = some false
    ∧ extract_domain .passThruRpz "\t" = none
    ∧ process_line .passThruRpz emptyAllow "\t" = none := by
  refine ⟨by decide, by decide, by decide, by decide⟩

/-- Claim C9 (amended): evaluating `should_passthru` succeeds on every
non-empty line for every converter; for the rpz converter,
`extract_domain` fails exactly on the lines consisting entirely of
whitespace (in particular it succeeds on every line containing at least
one non-whitespace character). -/
theorem c9_amended_totality :
    (∀ (conv : RpzConverter) (line : String), line ≠ "" →
        ∃ b, should_passthru conv line = some b)
    ∧ (∀ line : String,
        extract_domain .passThruRpz line = none ↔ line.data.all pyIsSpace = true) := by
  constructor
  · intro conv line hne
    obtain ⟨c, cs, hdata⟩ := exists_cons_of_ne_empty line hne
    cases conv with
    | passThruRpz =>
      refine ⟨(c = ';' || c = '$' || c = '@' || c = ' ' : Bool), ?_⟩
      simp [should_passthru, headChar, hdata]
    | domainList =>
      refine ⟨(c = ';' || c = '#' : Bool), ?_⟩
      simp [should_passthru, headChar, hdata]
    | wildcardDomainList =>
      refine ⟨(c = ';' || c = '#' : Bool), ?_⟩
      simp [should_passthru, headChar, hdata]
  · exact extract_domain_rpz_none_iff

/-- Witness for C9 (amended): classification succeeds on the concrete
non-empty line `x`. -/
theorem c9_amended_witness :
    ∃ b, should_passthru .passThruRpz "x" = some b :=
  c9_amended_totality.1 .passThruRpz "x" (by decide)

/-! ### Claim C10 -/

/-- Claim C10: the allow sets are class-level state shared by all
`RpzProcessor` instances (modelled by threading the single shared
`AllowSets` value through every call); `read_allow_list` never removes an
entry — previous membership is preserved — and after any call the
membership observed by every instance is exactly the union of the
previously loaded entries and the entries contributed by the newly read
file. -/
theorem c10_shared_monotone_union (ls : List String) (st : AllowSets) (d : String) :
    (d ∈ st.allow_domains_exact → d ∈ (read_allow_list st ls).allow_domains_exact)
    ∧ (d ∈ st.allow_domains_right → d ∈ (read_allow_list st ls).allow_domains_right)
    ∧ (d ∈ (read_allow_list st ls).allow_domains_exact ↔
        d ∈ st.allow_domains_exact
          ∨ d ∈ (read_allow_list emptyAllow ls).allow_domains_exact)
    ∧ (d ∈ (read_allow_list st ls).allow_domains_right ↔
        d ∈ st.allow_domains_right
          ∨ d ∈ (read_allow_list emptyAllow ls).allow_domains_right) := by
  obtain ⟨h1, h2⟩ := read_allow_list_mem ls st d
  exact ⟨fun h => h1.mpr (Or.inl h), fun h => h2.mpr (Or.inl h), h1, h2⟩

/-- Witness for C10: an entry loaded before a later `read_allow_list`
call survives that call. -/
theorem c10_witness :
    "kept.example.org" ∈ (read_allow_list ⟨["kept.example.org"], []⟩
      [".example.net"]).allow_domains_exact :=
  (c10_shared_monotone_union [".example.net"] ⟨["kept.example.org"], []⟩
      "kept.example.org").1 (by decide)

end RpzProc
